import Mathlib

/-!
Shallow embedding of report/controls.go: the control catalog (Controls),
the timestamped per-node control snapshot (NodeControls) and its wire
codec (CodecEncodeSelf / CodecDecodeSelf), plus the disabled generic
JSON entry points.

Modelling conventions:
- time.Time is modelled as a Nat; the zero value (Go's sentinel meaning
  "not set") is 0, and t1.Before(t2) is t1 < t2.
- Go maps are modelled as functions String to Option Control; writing a
  key is pointwise update, and building a fresh map then inserting every
  entry of another (the Merge loop) is captured pointwise.  The embedding
  is pure, so the Go guarantee that Merge and Copy leave both operands
  untouched holds by construction.
- The ugorji codec decoder is modelled as a cursor over a list of wire
  tokens; each driver primitive (TryDecodeAsNil, ReadMapStart,
  DecodeBytes, DecodeString, CheckBreak) consumes tokens from the front.
  DecSendContainerState is a no-op for the binary (msgpack-like) handle
  this type's comment says it targets, so it does not appear.  A decode
  error (a primitive meeting a token of the wrong shape) is Option.none.
-/

namespace Report

/-- Modelled from the spec: the external StringSet dependency, "a generic
string-set container abstraction (consumed, not redefined here) assumed to
support union and membership"; represented as a list of identifiers. -/
abbrev StringSet := List String

/-- Modelled from the spec: the empty StringSet constructor. -/
def MakeStringSet : StringSet := []

/-- Modelled from the spec: add-returning-new-set, the union of the
receiver with the given identifiers. -/
def StringSet.Add (s : StringSet) (ids : List String) : StringSet :=
  s ++ ids.filter (fun i => decide (i ∉ s))

/-- Go: type Control struct with ID, Human, Icon, Rank. -/
structure Control where
  ID : String
  Human : String
  Icon : String
  Rank : Int
deriving DecidableEq, Repr

/-- Go: type Controls map[string]Control, modelled as a partial function. -/
abbrev Controls := String → Option Control

/-- Go: Controls.Copy produces a fresh map with the same entries. -/
def Controls.Copy (cs : Controls) : Controls := fun k => cs k

/-- Go: Controls.Merge copies the receiver and then writes every entry of
other into the copy, so other wins pointwise where it has an entry. -/
def Controls.Merge (cs other : Controls) : Controls :=
  fun k =>
    match other k with
    | some v => some v
    | none => Controls.Copy cs k

/-- Go: Controls.AddControl writes c at key c.ID (in-place in Go; the
mutation is modelled by returning the updated map). -/
def Controls.AddControl (cs : Controls) (c : Control) : Controls :=
  fun k => if k = c.ID then some c else cs k

/-- Go: Controls.AddControls applies AddControl for each element in order. -/
def Controls.AddControls (cs : Controls) (l : List Control) : Controls :=
  l.foldl Controls.AddControl cs

/-- Go: type NodeControls struct { Timestamp time.Time; Controls StringSet }. -/
structure NodeControls where
  Timestamp : Nat
  Controls : StringSet
deriving DecidableEq, Repr

/-- Go: var emptyNodeControls = NodeControls{Controls: MakeStringSet()}. -/
def emptyNodeControls : NodeControls := ⟨0, MakeStringSet⟩

/-- Go: MakeNodeControls returns emptyNodeControls. -/
def MakeNodeControls : NodeControls := emptyNodeControls

/-- Go: NodeControls.Merge returns other when the receiver's timestamp is
strictly before other's, else the receiver. -/
def NodeControls.Merge (nc other : NodeControls) : NodeControls :=
  if nc.Timestamp < other.Timestamp then other else nc

/-- Go: NodeControls.Add stamps the current clock reading (mtime.Now is an
external dependency, passed here as the explicit argument now) and unions
the new ids into the control set. -/
def NodeControls.Add (nc : NodeControls) (now : Nat) (ids : List String) : NodeControls :=
  ⟨now, StringSet.Add nc.Controls ids⟩

/-- The decimal digit d rendered as a character. -/
def digitChar10 (d : Nat) : Char := Char.ofNat (48 + d)

/-- The character c read back as a decimal digit. -/
def charDigit10 (c : Char) : Nat := c.toNat - 48

/-- Modelled from the spec: renderTime, the external render half of the
dedicated time render/parse pair; the unset sentinel renders to the empty
string, any other time to a non-empty digit string re-parseable by
parseTime. -/
def renderTime (t : Nat) : String :=
  if t = 0 then "" else String.mk (((Nat.digits 10 t).map digitChar10).reverse)

/-- Modelled from the spec: parseTime, the matching parse half; inverts
renderTime, and the empty string parses to the unset sentinel. -/
def parseTime (s : String) : Nat :=
  Nat.ofDigits 10 ((s.data.map charDigit10).reverse)

/-- One element of the wire token stream the codec driver reads. -/
inductive WireToken where
  | nil : WireToken
  | mapStart (len : Int) : WireToken
  | str (s : String) : WireToken
  | strSet (ss : StringSet) : WireToken
  | brk : WireToken
deriving DecidableEq, Repr

/-- The wire key of the timestamp field. -/
def tsKey : String := "timestamp"

/-- The wire key of the controls field. -/
def ctlKey : String := "controls"

/-- Codec driver: r.TryDecodeAsNil consumes a nil token when it is next. -/
def tryDecodeAsNil : List WireToken → Bool × List WireToken
  | WireToken.nil :: rest => (true, rest)
  | ts => (false, ts)

/-- Codec driver: r.ReadMapStart consumes the map header and yields its
length, negative meaning indefinite. -/
def readMapStart : List WireToken → Option (Int × List WireToken)
  | WireToken.mapStart n :: rest => some (n, rest)
  | _ => none

/-- Codec driver: r.DecodeBytes reading a map key (the scratch-buffer and
unsafe string conversion of the source are memory-layout details; the
value read is the next string token). -/
def decodeBytesKey : List WireToken → Option (String × List WireToken)
  | WireToken.str s :: rest => some (s, rest)
  | _ => none

/-- Codec driver: r.DecodeString consumes the next string token. -/
def decodeString : List WireToken → Option (String × List WireToken)
  | WireToken.str s :: rest => some (s, rest)
  | _ => none

/-- Codec driver: r.CheckBreak consumes a break token when it is next. -/
def checkBreak : List WireToken → Bool × List WireToken
  | WireToken.brk :: rest => (true, rest)
  | ts => (false, ts)

/-- Modelled from the spec: StringSet.CodecDecodeSelf, the external set
codec, reads the controls value (a sequence of string identifiers) as one
wire value. -/
def decodeStringSet : List WireToken → Option (StringSet × List WireToken)
  | WireToken.strSet ss :: rest => some (ss, rest)
  | _ => none

/-- One iteration of the decode loop body of NodeControls.CodecDecodeSelf:
read a key, then switch on it.  A key equal to "timestamp" parses the next
string into Timestamp; "controls" decodes the next value into Controls
unless it is nil; any other key falls through the switch, which consumes
nothing beyond the key itself (the source has no default branch skipping
the unknown field's value). -/
def decodeEntry (nc : NodeControls) (ts : List WireToken) :
    Option (NodeControls × List WireToken) :=
  match decodeBytesKey ts with
  | none => none
  | some (k, ts1) =>
    if k = tsKey then
      match decodeString ts1 with
      | none => none
      | some (s, ts2) => some (⟨parseTime s, nc.Controls⟩, ts2)
    else if k = ctlKey then
      match tryDecodeAsNil ts1 with
      | (true, ts2) => some (nc, ts2)
      | (false, ts2) =>
        match decodeStringSet ts2 with
        | none => none
        | some (ss, ts3) => some (⟨nc.Timestamp, ss⟩, ts3)
    else
      some (nc, ts1)

/-- The decode loop for a definite-length map: n more entries to read. -/
def decodeFieldsDef : NodeControls → Nat → List WireToken →
    Option (NodeControls × List WireToken)
  | nc, 0, ts => some (nc, ts)
  | nc, n + 1, ts =>
    match decodeEntry nc ts with
    | none => none
    | some (nc1, ts1) => decodeFieldsDef nc1 n ts1

/-- The decode loop for an indefinite-length map: iterate until CheckBreak,
with fuel bounding the iterations (each consumes at least one token, so
fuel one past the stream length never runs out). -/
def decodeFieldsIndef : NodeControls → Nat → List WireToken →
    Option (NodeControls × List WireToken)
  | _, 0, _ => none
  | nc, fuel + 1, ts =>
    match checkBreak ts with
    | (true, ts1) => some (nc, ts1)
    | (false, _) =>
      match decodeEntry nc ts with
      | none => none
      | some (nc1, ts1) => decodeFieldsIndef nc1 fuel ts1

/-- Go: NodeControls.CodecDecodeSelf.  A nil wire value returns at once
leaving the receiver untouched; otherwise read the map header and run the
entry loop, definite or indefinite as the header says. -/
def NodeControls.CodecDecodeSelf (nc : NodeControls) (ts : List WireToken) :
    Option (NodeControls × List WireToken) :=
  match tryDecodeAsNil ts with
  | (true, ts1) => some (nc, ts1)
  | (false, ts1) =>
    match readMapStart ts1 with
    | none => none
    | some (len, ts2) =>
      if len < 0 then decodeFieldsIndef nc (ts2.length + 1) ts2
      else decodeFieldsDef nc len.toNat ts2

/-- The fields of wireNodeControls actually emitted for nc: both carry the
omitempty tag, so the timestamp field is dropped when renderTime yields
the empty string and the controls field when the set is empty. -/
def wireNodeControlsFields (nc : NodeControls) : List (String × WireToken) :=
  (if renderTime nc.Timestamp = "" then []
   else [(tsKey, WireToken.str (renderTime nc.Timestamp))]) ++
  (if nc.Controls = MakeStringSet then []
   else [(ctlKey, WireToken.strSet nc.Controls)])

/-- Go: NodeControls.CodecEncodeSelf encodes the wireNodeControls struct:
a map header followed by each present field as key token then value
token. -/
def NodeControls.CodecEncodeSelf (nc : NodeControls) : List WireToken :=
  WireToken.mapStart (wireNodeControlsFields nc).length ::
    (wireNodeControlsFields nc).foldr
      (fun kv acc => WireToken.str kv.1 :: kv.2 :: acc) []

/-- Outcome of a Go call that may panic. -/
inductive GoResult (α : Type) where
  | ok (val : α) : GoResult α
  | panicked (msg : String) : GoResult α
deriving DecidableEq, Repr

/-- The message of the MarshalJSON panic. -/
def marshalPanicMsg : String := "MarshalJSON shouldn't be used, use CodecEncodeSelf instead"

/-- The message of the UnmarshalJSON panic. -/
def unmarshalPanicMsg : String := "UnmarshalJSON shouldn't be used, use CodecDecodeSelf instead"

/-- Go: NodeControls.MarshalJSON panics unconditionally. -/
def NodeControls.MarshalJSON (_ : NodeControls) : GoResult (List UInt8) :=
  GoResult.panicked marshalPanicMsg

/-- Go: NodeControls.UnmarshalJSON panics unconditionally. -/
def NodeControls.UnmarshalJSON (_ : NodeControls) (_ : List UInt8) : GoResult Unit :=
  GoResult.panicked unmarshalPanicMsg

/-! Helper lemmas about the render/parse pair. -/

/-- Reading back a rendered decimal digit gives the digit. -/
theorem charDigit10_digitChar10 (d : Nat) (hd : d < 10) :
    charDigit10 (digitChar10 d) = d := by
  interval_cases d <;> decide

/-- The parse half inverts the render half, on the sentinel included. -/
theorem parseTime_renderTime (t : Nat) : parseTime (renderTime t) = t := by
  by_cases h : t = 0
  · subst h; rfl
  · unfold parseTime renderTime
    rw [if_neg h]
    show Nat.ofDigits 10
      (((((Nat.digits 10 t).map digitChar10).reverse).map charDigit10).reverse) = t
    rw [List.map_reverse, List.reverse_reverse, List.map_map]
    have hmap : (Nat.digits 10 t).map (charDigit10 ∘ digitChar10) = Nat.digits 10 t := by
      calc (Nat.digits 10 t).map (charDigit10 ∘ digitChar10)
          = (Nat.digits 10 t).map id := List.map_congr_left
            (fun d hd => charDigit10_digitChar10 d (Nat.digits_lt_base (by norm_num) hd))
        _ = Nat.digits 10 t := List.map_id _
    rw [hmap, Nat.ofDigits_digits]

/-- The render half yields the empty string exactly on the sentinel. -/
theorem renderTime_eq_empty_iff (t : Nat) : renderTime t = "" ↔ t = 0 := by
  constructor
  · intro hs
    by_contra ht
    unfold renderTime at hs
    rw [if_neg ht] at hs
    have hdata : ((Nat.digits 10 t).map digitChar10).reverse = [] :=
      congrArg String.data hs
    rw [List.reverse_eq_nil_iff, List.map_eq_nil_iff] at hdata
    exact absurd hdata (Nat.digits_ne_nil_iff_ne_zero.mpr ht)
  · intro h
    simp [renderTime, h]

/-! Helper evaluations of the decoder on the payload shapes the encoder
emits: a map with only the timestamp entry, and one with the timestamp
entry then the controls entry. -/

/-- Decoding a one-entry map holding only the timestamp field. -/
theorem decode_ts_only (nc : NodeControls) (s : String) :
    NodeControls.CodecDecodeSelf nc
      [WireToken.mapStart 1, WireToken.str tsKey, WireToken.str s] =
      some (⟨parseTime s, nc.Controls⟩, []) := rfl

/-- Decoding a two-entry map holding the timestamp then the controls field. -/
theorem decode_ts_ctl (nc : NodeControls) (s : String) (ss : StringSet) :
    NodeControls.CodecDecodeSelf nc
      [WireToken.mapStart 2, WireToken.str tsKey, WireToken.str s,
        WireToken.str ctlKey, WireToken.strSet ss] =
      some (⟨parseTime s, ss⟩, []) := rfl

/-! The claims. -/

/-- Claim C1: NodeControls.Merge is strict last-writer-wins on the whole
snapshot: when the receiver's timestamp is strictly earlier than the
other's, the result is the other snapshot exactly (its control set
included, with no union); on a tie or when the receiver is later, the
result is the receiver exactly. -/
theorem C1_merge_strict_lww (a b : NodeControls) :
    (a.Timestamp < b.Timestamp → NodeControls.Merge a b = b) ∧
    (b.Timestamp ≤ a.Timestamp → NodeControls.Merge a b = a) := by
  constructor
  · intro h
    simp [NodeControls.Merge, h]
  · intro h
    simp [NodeControls.Merge, Nat.not_lt.mpr h]

/-- Claim C3 counterexample: a concrete pair with different timestamps on
which Merge commutes, refuting the claimed asymmetry: both orders return
the snapshot with the later timestamp. -/
theorem C3_counterexample :
    (NodeControls.mk 1 []).Timestamp ≠ (NodeControls.mk 2 ["x"]).Timestamp ∧
    NodeControls.Merge (NodeControls.mk 1 []) (NodeControls.mk 2 ["x"]) =
      NodeControls.Merge (NodeControls.mk 2 ["x"]) (NodeControls.mk 1 []) :=
  ⟨by decide, rfl⟩

/-- Claim C3 as amended: NodeControls.Merge is symmetric whenever the two
timestamps differ (both orders return the snapshot with the later
timestamp); asymmetry can only arise on timestamp ties. -/
theorem C3_merge_symmetric_when_timestamps_differ (a b : NodeControls)
    (h : a.Timestamp ≠ b.Timestamp) :
    NodeControls.Merge a b = NodeControls.Merge b a := by
  unfold NodeControls.Merge
  rcases Nat.lt_trichotomy a.Timestamp b.Timestamp with hlt | heq | hgt
  · rw [if_pos hlt, if_neg (Nat.not_lt.mpr (Nat.le_of_lt hlt))]
  · exact absurd heq h
  · rw [if_neg (Nat.not_lt.mpr (Nat.le_of_lt hgt)), if_pos hgt]

/-- Claim C3 witness: the amended symmetry at a concrete pair with
different timestamps. -/
theorem C3_witness :
    NodeControls.Merge (NodeControls.mk 1 []) (NodeControls.mk 3 ["y"]) =
      NodeControls.Merge (NodeControls.mk 3 ["y"]) (NodeControls.mk 1 []) :=
  C3_merge_symmetric_when_timestamps_differ
    (NodeControls.mk 1 []) (NodeControls.mk 3 ["y"]) (by decide)

/-- Claim C5: decoding absence yields the unset value: a map payload
without the timestamp key leaves Timestamp at the zero sentinel, one
without the controls key leaves Controls at the empty set, and a nil wire
value decodes, without error, to a value equal to MakeNodeControls. -/
theorem C5_decode_absent_yields_unset :
    (∀ ss : StringSet,
      NodeControls.CodecDecodeSelf MakeNodeControls
        [WireToken.mapStart 1, WireToken.str ctlKey, WireToken.strSet ss] =
        some (NodeControls.mk 0 ss, [])) ∧
    (∀ s : String,
      NodeControls.CodecDecodeSelf MakeNodeControls
        [WireToken.mapStart 1, WireToken.str tsKey, WireToken.str s] =
        some (NodeControls.mk (parseTime s) MakeStringSet, [])) ∧
    NodeControls.CodecDecodeSelf MakeNodeControls [WireToken.nil] =
      some (MakeNodeControls, []) :=
  ⟨fun _ => rfl, fun _ => rfl, rfl⟩

/-- Claim C7: the generic JSON entry points are disabled and fail loudly:
every invocation of MarshalJSON or UnmarshalJSON, on any value and any
input, panics with the unsupported-operation message and never returns an
ordinary result. -/
theorem C7_generic_json_disabled (nc : NodeControls) (b : List UInt8) :
    NodeControls.MarshalJSON nc = GoResult.panicked marshalPanicMsg ∧
    NodeControls.UnmarshalJSON nc b = GoResult.panicked unmarshalPanicMsg ∧
    (∀ v, NodeControls.MarshalJSON nc ≠ GoResult.ok v) ∧
    (∀ v, NodeControls.UnmarshalJSON nc b ≠ GoResult.ok v) :=
  ⟨rfl, rfl, fun _ h => GoResult.noConfusion h, fun _ h => GoResult.noConfusion h⟩

/-- Claim C9: catalog merge is right-biased and total: the merge of A and
B holds every entry of B (B wins on any key collision) and, on keys B
lacks, every entry of A; the receiver is read only through Copy, which
preserves every entry, and the embedding is pure, so both operands are
unchanged by the call. -/
theorem C9_catalog_merge_right_biased (A B : Controls) (k : String) :
    (∀ v, B k = some v → Controls.Merge A B k = some v) ∧
    (B k = none → Controls.Merge A B k = A k) ∧
    Controls.Copy A k = A k := by
  refine ⟨?_, ?_, rfl⟩
  · intro v hv
    simp [Controls.Merge, hv]
  · intro hv
    simp [Controls.Merge, Controls.Copy, hv]

/-- Claim C10: CodecDecodeSelf decodes in place without resetting the
receiver: for a receiver already holding a non-sentinel timestamp or a
non-empty control set, a nil wire value, an empty map, a map lacking one
of the keys, and a nil controls value all leave the corresponding prior
field value intact; only keys present in the payload overwrite fields. -/
theorem C10_decode_in_place (nc : NodeControls)
    (_h : nc.Timestamp ≠ 0 ∨ nc.Controls ≠ MakeStringSet) :
    NodeControls.CodecDecodeSelf nc [WireToken.nil] = some (nc, []) ∧
    NodeControls.CodecDecodeSelf nc [WireToken.mapStart 0] = some (nc, []) ∧
    (∀ s, NodeControls.CodecDecodeSelf nc
        [WireToken.mapStart 1, WireToken.str tsKey, WireToken.str s] =
        some (NodeControls.mk (parseTime s) nc.Controls, [])) ∧
    (∀ ss, NodeControls.CodecDecodeSelf nc
        [WireToken.mapStart 1, WireToken.str ctlKey, WireToken.strSet ss] =
        some (NodeControls.mk nc.Timestamp ss, [])) ∧
    NodeControls.CodecDecodeSelf nc
        [WireToken.mapStart 1, WireToken.str ctlKey, WireToken.nil] =
        some (nc, []) :=
  ⟨rfl, rfl, fun _ => rfl, fun _ => rfl, rfl⟩

/-- Claim C10 witness: the in-place behaviour at a concrete receiver with
a non-sentinel timestamp and a non-empty control set. -/
theorem C10_witness :
    NodeControls.CodecDecodeSelf (NodeControls.mk 5 ["a"]) [WireToken.nil] =
      some (NodeControls.mk 5 ["a"], []) ∧
    NodeControls.CodecDecodeSelf (NodeControls.mk 5 ["a"]) [WireToken.mapStart 0] =
      some (NodeControls.mk 5 ["a"], []) ∧
    (∀ s, NodeControls.CodecDecodeSelf (NodeControls.mk 5 ["a"])
        [WireToken.mapStart 1, WireToken.str tsKey, WireToken.str s] =
        some (NodeControls.mk (parseTime s) (NodeControls.mk 5 ["a"]).Controls, [])) ∧
    (∀ ss, NodeControls.CodecDecodeSelf (NodeControls.mk 5 ["a"])
        [WireToken.mapStart 1, WireToken.str ctlKey, WireToken.strSet ss] =
        some (NodeControls.mk (NodeControls.mk 5 ["a"]).Timestamp ss, [])) ∧
    NodeControls.CodecDecodeSelf (NodeControls.mk 5 ["a"])
        [WireToken.mapStart 1, WireToken.str ctlKey, WireToken.nil] =
        some (NodeControls.mk 5 ["a"], []) :=
  C10_decode_in_place (NodeControls.mk 5 ["a"]) (Or.inl (by decide))

/-- Claim C2 turned up a divergence: the decode loop has no default branch
consuming an unknown key's value, so the value is read as the next map
key and the stream desyncs.  On the concrete payload holding an extra
field before the timestamp field, the decoder returns the receiver
unchanged with the timestamp entry's tokens left unread, while the same
payload without the extra field decodes the timestamp. -/
theorem C2_unknown_value_not_skipped :
    NodeControls.CodecDecodeSelf MakeNodeControls
      [WireToken.mapStart 2, WireToken.str ("extra"), WireToken.str ("v"),
        WireToken.str tsKey, WireToken.str ("33")] =
      some (MakeNodeControls, [WireToken.str tsKey, WireToken.str ("33")]) ∧
    NodeControls.CodecDecodeSelf MakeNodeControls
      [WireToken.mapStart 1, WireToken.str tsKey, WireToken.str ("33")] =
      some (NodeControls.mk 33 MakeStringSet, []) :=
  ⟨rfl, rfl⟩

/-- Claim C6: the encoded wire object carries the timestamp field (a
string) exactly when Timestamp is not the unset sentinel and the controls
field exactly when the control set is non-empty; encoding MakeNodeControls
emits a map with no fields at all. -/
theorem C6_encode_field_presence (nc : NodeControls) :
    (tsKey ∈ (wireNodeControlsFields nc).map Prod.fst ↔ nc.Timestamp ≠ 0) ∧
    (ctlKey ∈ (wireNodeControlsFields nc).map Prod.fst ↔ nc.Controls ≠ MakeStringSet) ∧
    NodeControls.CodecEncodeSelf MakeNodeControls = [WireToken.mapStart 0] := by
  have hkeys : tsKey ≠ ctlKey := by decide
  have hrt : renderTime nc.Timestamp = "" ↔ nc.Timestamp = 0 :=
    renderTime_eq_empty_iff nc.Timestamp
  have hr0 : renderTime 0 = "" := rfl
  refine ⟨?_, ?_, rfl⟩ <;>
    by_cases ht : nc.Timestamp = 0 <;>
      by_cases hc : nc.Controls = MakeStringSet <;>
        simp [wireNodeControlsFields, hrt, hr0, ht, hc, hkeys, Ne.symm hkeys]

/-- Claim C8: Add is monotonic and additive: under an advancing clock (the
injected reading now being at least the receiver's timestamp), the result
of Add holds every identifier of the receiver's set and every given
identifier, and its timestamp is at least the receiver's; the receiver
itself, a pure value, is unchanged. -/
theorem C8_add_monotonic_additive (s : NodeControls) (now : Nat) (ids : List String)
    (h : s.Timestamp ≤ now) :
    (∀ x ∈ s.Controls, x ∈ (NodeControls.Add s now ids).Controls) ∧
    (∀ x ∈ ids, x ∈ (NodeControls.Add s now ids).Controls) ∧
    s.Timestamp ≤ (NodeControls.Add s now ids).Timestamp := by
  refine ⟨?_, ?_, h⟩
  · intro x hx
    exact List.mem_append_left _ hx
  · intro x hx
    show x ∈ StringSet.Add s.Controls ids
    unfold StringSet.Add
    by_cases hm : x ∈ s.Controls
    · exact List.mem_append_left _ hm
    · refine List.mem_append_right _ ?_
      rw [List.mem_filter]
      exact ⟨hx, by simpa using hm⟩

/-- Claim C8 witness: the Add properties at a concrete snapshot, clock
reading and identifier list. -/
theorem C8_witness :
    (∀ x ∈ (NodeControls.mk 3 ["a"]).Controls,
      x ∈ (NodeControls.Add (NodeControls.mk 3 ["a"]) 5 ["b"]).Controls) ∧
    (∀ x ∈ (["b"] : List String),
      x ∈ (NodeControls.Add (NodeControls.mk 3 ["a"]) 5 ["b"]).Controls) ∧
    (NodeControls.mk 3 ["a"]).Timestamp ≤
      (NodeControls.Add (NodeControls.mk 3 ["a"]) 5 ["b"]).Timestamp :=
  C8_add_monotonic_additive (NodeControls.mk 3 ["a"]) 5 ["b"] (by decide)

/-- Claim C4: the encode/decode round trip: for every snapshot with a
non-sentinel timestamp and an arbitrary control set, decoding the encoding
into a fresh value yields the snapshot back, consuming the whole payload,
with the timestamp recovered exactly (the modelled render/parse pair is
exact) and the control set equal as a set. -/
theorem C4_encode_decode_roundtrip (x : NodeControls) (h : x.Timestamp ≠ 0) :
    NodeControls.CodecDecodeSelf MakeNodeControls (NodeControls.CodecEncodeSelf x) =
      some (x, []) := by
  obtain ⟨t, cs⟩ := x
  have ht : t ≠ 0 := h
  have hrt : renderTime t ≠ "" := fun he => ht ((renderTime_eq_empty_iff t).mp he)
  by_cases hc : cs = MakeStringSet
  · have e1 : NodeControls.CodecEncodeSelf ⟨t, cs⟩ =
        [WireToken.mapStart 1, WireToken.str tsKey, WireToken.str (renderTime t)] := by
      subst hc
      simp [NodeControls.CodecEncodeSelf, wireNodeControlsFields, hrt]
    rw [e1, decode_ts_only, parseTime_renderTime, hc]
    rfl
  · have e2 : NodeControls.CodecEncodeSelf ⟨t, cs⟩ =
        [WireToken.mapStart 2, WireToken.str tsKey, WireToken.str (renderTime t),
          WireToken.str ctlKey, WireToken.strSet cs] := by
      simp [NodeControls.CodecEncodeSelf, wireNodeControlsFields, hrt, hc]
    rw [e2, decode_ts_ctl, parseTime_renderTime]

/-- Claim C4 witness: the round trip at a concrete snapshot with a
non-sentinel timestamp and a non-empty control set. -/
theorem C4_witness :
    NodeControls.CodecDecodeSelf MakeNodeControls
      (NodeControls.CodecEncodeSelf (NodeControls.mk 7 ["pause", "resume"])) =
      some (NodeControls.mk 7 ["pause", "resume"], []) :=
  C4_encode_decode_roundtrip (NodeControls.mk 7 ["pause", "resume"]) (by decide)

end Report
